import Mathlib

/-!
Shallow embedding of `src/ArtilleryShells/src/main.cpp`.

The program is a Win32 skeleton: `wWinMain` registers a window class,
creates a window, and runs a peek-based message loop; `WndProc` is the
window procedure.  The environment (the OS message queue) is modelled as
a *poll trace*: a list of `Option MSG`, one entry per `PeekMessage`
call with `PM_REMOVE` inside the loop.  `some m` means the poll found
and removed message `m`; `none` means the queue was empty at that poll
(an idle iteration).  The priming `PeekMessage` with `PM_NOREMOVE`
executed before the loop sees the head of the trace without consuming
it.  A run over a finite trace either terminates (the `while` condition
`msg.message != WM_QUIT` fails) or exhausts the trace with the loop
still running, in which case the final state is `none` and `wWinMain`
has not yet returned.
-/

/-- Value of the Windows message constant `WM_NULL`. -/
def WM_NULL : Nat := 0x0000

/-- Value of the Windows message constant `WM_DESTROY`. -/
def WM_DESTROY : Nat := 0x0002

/-- Value of the Windows message constant `WM_QUIT`. -/
def WM_QUIT : Nat := 0x0012

/-- The fields of the Win32 `MSG` record that the program reads or the
spec mentions: the message kind and the two opaque parameter words. -/
structure MSG where
  message : Nat
  wParam : Nat
  lParam : Int
  deriving DecidableEq, Repr

/-- Observable action of one loop iteration: either the retrieved
message is translated and dispatched (the `if (bGotMsg)` branch,
`TranslateMessage` / `DispatchMessage`), or one unit of idle work runs
(the `else` branch: update, render, present). -/
inductive IterEvent where
  | dispatch (m : MSG)
  | idle
  deriving DecidableEq, Repr

/-- Loop-local state of `wWinMain`: `bool bGotMsg; MSG msg;` declared
just before the loop (lines 93–94 of `main.cpp`). -/
structure LoopState where
  bGotMsg : Bool
  msg : MSG
  deriving DecidableEq, Repr

/-- Result of running the loop over a finite poll trace: the events of
the iterations executed, the loop state at termination (`none` when the
trace was exhausted with the loop still running), and the unconsumed
suffix of the trace. -/
structure LoopResult where
  events : List IterEvent
  finalState : Option LoopState
  rest : List (Option MSG)
  deriving DecidableEq, Repr

/-- Effect of one `PeekMessage(..., PM_REMOVE)` call on the loop state:
`bGotMsg = (PeekMessage(...) != 0)`, and `msg` is overwritten exactly
when a message was retrieved (on an empty queue `msg` is unchanged). -/
def stepState (s : LoopState) (p : Option MSG) : LoopState :=
  match p with
  | some m => { bGotMsg := true, msg := m }
  | none => { bGotMsg := false, msg := s.msg }

/-- The branch taken by an iteration whose poll result is `p`. -/
def pollEvent : Option MSG → IterEvent
  | some m => IterEvent.dispatch m
  | none => IterEvent.idle

/-- The `while (msg.message != WM_QUIT)` loop of `wWinMain`
(lines 98–117 of `main.cpp`), run over a finite poll trace.  Each
iteration first checks the condition, then polls, then takes exactly
one of the two branches. -/
def loopRun : LoopState → List (Option MSG) → LoopResult
  | s, [] =>
    if s.msg.message = WM_QUIT then ⟨[], some s, []⟩ else ⟨[], none, []⟩
  | s, p :: rest =>
    if s.msg.message = WM_QUIT then ⟨[], some s, p :: rest⟩
    else
      let r := loopRun (stepState s p) rest
      ⟨pollEvent p :: r.events, r.finalState, r.rest⟩

/-- The priming `PeekMessage(&msg, NULL, 0U, 0U, PM_NOREMOVE)` before
the loop (line 96): it copies the first pending message into `msg`
without removing it from the queue, and leaves `msg` unchanged when no
message is pending. -/
def primingPeek (trace : List (Option MSG)) (msg : MSG) : MSG :=
  match trace with
  | some m :: _ => m
  | _ => msg

/-- The `MSG` record as pre-initialized before the loop:
`msg.message = WM_NULL` (line 95); the other fields are uninitialized
in the source and never read before being overwritten, modelled as 0. -/
def initialMsg : MSG := { message := WM_NULL, wParam := 0, lParam := 0 }

/-- Lines 93–117 of `main.cpp`: initialize the loop state, perform the
priming non-removing peek, and run the message loop over the trace.
`bGotMsg` is uninitialized in the source and never read before its
first assignment; it is modelled as `false`. -/
def runLoopPhase (trace : List (Option MSG)) : LoopResult :=
  loopRun { bGotMsg := false, msg := primingPeek trace initialMsg } trace

/-- Outcome of the two fallible initialization steps of `wWinMain`:
whether `RegisterClassEx` returned nonzero and whether `CreateWindowEx`
returned a non-null handle. -/
structure InitEnv where
  registerClassOk : Bool
  createWindowOk : Bool
  deriving DecidableEq, Repr

/-- Observable outcome of a `wWinMain` run over a finite poll trace:
the exit status (`none` when the loop is still running after the trace)
and the loop iteration events. -/
structure RunResult where
  exitCode : Option Int
  events : List IterEvent
  deriving DecidableEq, Repr

/-- The `wWinMain` entry point (lines 29–120 of `main.cpp`): return -1
on registration failure (line 66) or window-creation failure (line 87),
otherwise run the message loop and return 0 when it terminates. -/
def wWinMain (env : InitEnv) (trace : List (Option MSG)) : RunResult :=
  if env.registerClassOk = false then { exitCode := some (-1), events := [] }
  else if env.createWindowOk = false then { exitCode := some (-1), events := [] }
  else
    let r := runLoopPhase trace
    { exitCode := if r.finalState.isSome then some 0 else none
      events := r.events }

/-- The `WndProc` window procedure (lines 138–153 of `main.cpp`).
`DefWindowProc` is OS code, taken as a parameter.  The second component
is the message posted by `PostQuitMessage(0)` in the `WM_DESTROY` case:
a `WM_QUIT` record carrying exit code 0 in `wParam`. -/
def WndProc (defWindowProc : Nat → Nat → Nat → Int → Int)
    (hwnd uMsg wParam : Nat) (lParam : Int) : Int × Option MSG :=
  let posted : Option MSG :=
    if uMsg = WM_DESTROY then some { message := WM_QUIT, wParam := 0, lParam := 0 }
    else none
  (defWindowProc hwnd uMsg wParam lParam, posted)

/-- The messages dispatched during a run, in order. -/
def dispatched (es : List IterEvent) : List MSG :=
  es.filterMap fun e =>
    match e with
    | IterEvent.dispatch m => some m
    | IterEvent.idle => none

/-- Number of `DispatchMessage` calls in a run. -/
def dispatchCount (es : List IterEvent) : Nat := (dispatched es).length

/-- Number of idle-work iterations in a run. -/
def idleCount (es : List IterEvent) : Nat :=
  es.countP fun e =>
    match e with
    | IterEvent.idle => true
    | IterEvent.dispatch _ => false

/-- Concrete non-sentinel message (a `WM_KEYDOWN` for key `A`). -/
def msgA : MSG := { message := 0x0100, wParam := 65, lParam := 0 }

/-- Concrete non-sentinel message (a `WM_KEYDOWN` for key `B`). -/
def msgB : MSG := { message := 0x0100, wParam := 66, lParam := 0 }

/-- Concrete sentinel message: `WM_QUIT` with exit code 0. -/
def msgQuit : MSG := { message := WM_QUIT, wParam := 0, lParam := 0 }

/-- An `InitEnv` where both initialization steps succeed. -/
def envOk : InitEnv := { registerClassOk := true, createWindowOk := true }

theorem primingPeek_nil (m : MSG) : primingPeek [] m = m := rfl

theorem primingPeek_none_cons (t : List (Option MSG)) (m : MSG) :
    primingPeek (none :: t) m = m := rfl

theorem primingPeek_some_cons (q : MSG) (t : List (Option MSG)) (m : MSG) :
    primingPeek (some q :: t) m = q := rfl

theorem initialMsg_ne_quit : initialMsg.message ≠ WM_QUIT := by decide

theorem stepState_msg_ne_quit (s : LoopState) (p : Option MSG)
    (hs : s.msg.message ≠ WM_QUIT)
    (hp : ∀ m : MSG, p = some m → m.message ≠ WM_QUIT) :
    (stepState s p).msg.message ≠ WM_QUIT := by
  cases p with
  | none => simpa [stepState] using hs
  | some m => simpa [stepState] using hp m rfl

theorem loopRun_quit (s : LoopState) (t : List (Option MSG))
    (hs : s.msg.message = WM_QUIT) : loopRun s t = ⟨[], some s, t⟩ := by
  cases t <;> simp [loopRun, hs]

theorem loopRun_no_quit (t : List (Option MSG)) : ∀ s : LoopState,
    s.msg.message ≠ WM_QUIT →
    (∀ m : MSG, some m ∈ t → m.message ≠ WM_QUIT) →
    loopRun s t = ⟨t.map pollEvent, none, []⟩ := by
  induction t with
  | nil => intro s hs _; simp [loopRun, hs]
  | cons p rest ih =>
    intro s hs hall
    have hs' : (stepState s p).msg.message ≠ WM_QUIT :=
      stepState_msg_ne_quit s p hs fun m hm =>
        hall m (hm ▸ List.mem_cons_self _ _)
    have hall' : ∀ m : MSG, some m ∈ rest → m.message ≠ WM_QUIT :=
      fun m hm => hall m (List.mem_cons_of_mem _ hm)
    simp [loopRun, hs, ih (stepState s p) hs' hall']

theorem loopRun_hits_quit (pre : List (Option MSG)) :
    ∀ (s : LoopState) (q : MSG) (rest : List (Option MSG)),
    s.msg.message ≠ WM_QUIT →
    (∀ m : MSG, some m ∈ pre → m.message ≠ WM_QUIT) →
    q.message = WM_QUIT →
    loopRun s (pre ++ some q :: rest) =
      ⟨pre.map pollEvent ++ [IterEvent.dispatch q], some ⟨true, q⟩, rest⟩ := by
  induction pre with
  | nil =>
    intro s q rest hs _ hq
    have hr := loopRun_quit ⟨true, q⟩ rest hq
    simp [loopRun, hs, stepState, pollEvent, hr]
  | cons p pre ih =>
    intro s q rest hs hall hq
    have hs' : (stepState s p).msg.message ≠ WM_QUIT :=
      stepState_msg_ne_quit s p hs fun m hm =>
        hall m (hm ▸ List.mem_cons_self _ _)
    have hall' : ∀ m : MSG, some m ∈ pre → m.message ≠ WM_QUIT :=
      fun m hm => hall m (List.mem_cons_of_mem _ hm)
    simp [loopRun, hs, ih (stepState s p) q rest hs' hall' hq]

theorem loopRun_consumed (t : List (Option MSG)) : ∀ s : LoopState,
    ∃ k : Nat,
      (loopRun s t).events = (t.take k).map pollEvent ∧
      (loopRun s t).rest = t.drop k ∧
      ((loopRun s t).finalState = none ∨
        (loopRun s t).finalState = some ((t.take k).foldl stepState s)) := by
  induction t with
  | nil =>
    intro s
    refine ⟨0, ?_⟩
    by_cases hs : s.msg.message = WM_QUIT <;> simp [loopRun, hs]
  | cons p rest ih =>
    intro s
    by_cases hs : s.msg.message = WM_QUIT
    · exact ⟨0, by simp [loopRun, hs]⟩
    · obtain ⟨k, h1, h2, h3⟩ := ih (stepState s p)
      refine ⟨k + 1, ?_, ?_, ?_⟩
      · simp [loopRun, hs, h1]
      · simp [loopRun, hs, h2]
      · rcases h3 with h | h
        · left; simp [loopRun, hs, h]
        · right; simp [loopRun, hs, h]

theorem loopRun_final_quit (t : List (Option MSG)) :
    ∀ (s fs : LoopState),
    (loopRun s t).finalState = some fs → fs.msg.message = WM_QUIT := by
  induction t with
  | nil =>
    intro s fs h
    by_cases hs : s.msg.message = WM_QUIT
    · simp [loopRun, hs] at h
      exact h ▸ hs
    · simp [loopRun, hs] at h
  | cons p rest ih =>
    intro s fs h
    by_cases hs : s.msg.message = WM_QUIT
    · simp [loopRun, hs] at h
      exact h ▸ hs
    · simp [loopRun, hs] at h
      exact ih (stepState s p) fs h

theorem dispatched_map_pollEvent (t : List (Option MSG)) :
    dispatched (t.map pollEvent) = t.filterMap id := by
  induction t with
  | nil => simp [dispatched]
  | cons p rest ih =>
    cases p <;> simp [dispatched, pollEvent] <;>
      simpa [dispatched] using ih

theorem idleCount_replicate_append (k : Nat) (m : MSG) :
    idleCount (List.replicate k IterEvent.idle ++ [IterEvent.dispatch m]) = k := by
  induction k with
  | zero => simp [idleCount]
  | succ j ih =>
    simp only [List.replicate_succ, List.cons_append, idleCount,
      List.countP_cons] at ih ⊢
    simpa [idleCount] using ih

theorem primingPeek_append_of_ne_nil (pre t : List (Option MSG)) (m : MSG)
    (h : pre ≠ []) : primingPeek (pre ++ t) m = primingPeek pre m := by
  cases pre with
  | nil => exact absurd rfl h
  | cons p rest => cases p <;> rfl

/-- C1: over any finite poll trace none of whose messages is the
sentinel `WM_QUIT`, the loop takes exactly one branch per poll, so it
dispatches each retrieved message exactly once, in arrival order, and
performs no idle work on any iteration that retrieved a message. -/
theorem c1_dispatch_each_once_in_order (trace : List (Option MSG))
    (h : ∀ m : MSG, some m ∈ trace → m.message ≠ WM_QUIT) :
    (runLoopPhase trace).events = trace.map pollEvent ∧
    dispatched (runLoopPhase trace).events = trace.filterMap id := by
  have h0 : (primingPeek trace initialMsg).message ≠ WM_QUIT := by
    cases trace with
    | nil => rw [primingPeek_nil]; exact initialMsg_ne_quit
    | cons p rest =>
      cases p with
      | none => rw [primingPeek_none_cons]; exact initialMsg_ne_quit
      | some m =>
        rw [primingPeek_some_cons]
        exact h m (List.mem_cons_self _ _)
  have hrun := loopRun_no_quit trace ⟨false, primingPeek trace initialMsg⟩ h0 h
  refine ⟨?_, ?_⟩
  · simp [runLoopPhase, hrun]
  · simp [runLoopPhase, hrun, dispatched_map_pollEvent]

theorem c1_witness :
    (runLoopPhase [some msgA, none, some msgB]).events =
      [some msgA, none, some msgB].map pollEvent ∧
    dispatched (runLoopPhase [some msgA, none, some msgB]).events =
      [some msgA, none, some msgB].filterMap id :=
  c1_dispatch_each_once_in_order [some msgA, none, some msgB] (by
    intro m hm
    simp at hm
    rcases hm with h | h <;> subst h <;> decide)

/-- C2: in any run whose initialization succeeds and in which the
sentinel is retrieved from the queue (some nonempty prefix of
non-sentinel polls, then a `WM_QUIT` poll), the loop executes exactly
one more iteration than the prefix length — so it stops within one
iteration of receiving the sentinel, however many idle polls came
before — consumes nothing after the sentinel, and `wWinMain`
returns 0. -/
theorem c2_sentinel_terminates (env : InitEnv) (pre : List (Option MSG))
    (q : MSG) (rest : List (Option MSG))
    (hreg : env.registerClassOk = true) (hcre : env.createWindowOk = true)
    (hpre : pre ≠ [])
    (hall : ∀ m : MSG, some m ∈ pre → m.message ≠ WM_QUIT)
    (hq : q.message = WM_QUIT) :
    (runLoopPhase (pre ++ some q :: rest)).events.length = pre.length + 1 ∧
    (runLoopPhase (pre ++ some q :: rest)).rest = rest ∧
    (runLoopPhase (pre ++ some q :: rest)).finalState = some ⟨true, q⟩ ∧
    (wWinMain env (pre ++ some q :: rest)).exitCode = some 0 := by
  have h0 : (primingPeek (pre ++ some q :: rest) initialMsg).message ≠ WM_QUIT := by
    rw [primingPeek_append_of_ne_nil pre (some q :: rest) initialMsg hpre]
    cases pre with
    | nil => exact absurd rfl hpre
    | cons p t =>
      cases p with
      | none => rw [primingPeek_none_cons]; exact initialMsg_ne_quit
      | some m =>
        rw [primingPeek_some_cons]
        exact hall m (List.mem_cons_self _ _)
  have hrun := loopRun_hits_quit pre
    ⟨false, primingPeek (pre ++ some q :: rest) initialMsg⟩ q rest h0 hall hq
  have hphase : runLoopPhase (pre ++ some q :: rest) =
      ⟨pre.map pollEvent ++ [IterEvent.dispatch q], some ⟨true, q⟩, rest⟩ := by
    simpa [runLoopPhase] using hrun
  refine ⟨?_, ?_, ?_, ?_⟩
  · simp [hphase]
  · simp [hphase]
  · simp [hphase]
  · simp [wWinMain, hreg, hcre, hphase]

theorem c2_witness :
    ((envOk : InitEnv).registerClassOk = true) ∧
    ((envOk : InitEnv).createWindowOk = true) ∧
    ([none, some msgA] ≠ ([] : List (Option MSG))) ∧
    (∀ m : MSG, some m ∈ [none, some msgA] → m.message ≠ WM_QUIT) ∧
    msgQuit.message = WM_QUIT ∧
    ((runLoopPhase ([none, some msgA] ++ some msgQuit :: [])).events.length =
        [none, some msgA].length + 1 ∧
      (runLoopPhase ([none, some msgA] ++ some msgQuit :: [])).rest = [] ∧
      (runLoopPhase ([none, some msgA] ++ some msgQuit :: [])).finalState =
        some ⟨true, msgQuit⟩ ∧
      (wWinMain envOk ([none, some msgA] ++ some msgQuit :: [])).exitCode =
        some 0) :=
  ⟨by decide, by decide, by decide,
    by intro m hm; simp at hm; subst hm; decide, by decide,
    c2_sentinel_terminates envOk [none, some msgA] msgQuit []
      (by decide) (by decide) (by decide)
      (by intro m hm; simp at hm; subst hm; decide) (by decide)⟩

/-- C3 counterexample: on the trace [A, B, sentinel] with no idle gaps,
the loop passes the retrieved sentinel to `DispatchMessage` as well
(the `if (bGotMsg)` branch makes no exception for `WM_QUIT`), so the
total number of dispatch calls is 3, not 2 as the claim states. -/
theorem c3_counterexample :
    dispatchCount (runLoopPhase [some msgA, some msgB, some msgQuit]).events = 3 ∧
    ¬ dispatchCount (runLoopPhase [some msgA, some msgB, some msgQuit]).events = 2 := by
  decide

/-- C3 (amended): on a trace [A, B, sentinel] with A and B non-sentinel
and no idle gaps, the loop dispatches A, then B, then the sentinel
itself, then terminates; the total number of dispatch calls is 3. -/
theorem c3_amended_dispatch_count (a b q : MSG)
    (ha : a.message ≠ WM_QUIT) (hb : b.message ≠ WM_QUIT)
    (hq : q.message = WM_QUIT) :
    (runLoopPhase [some a, some b, some q]).events =
      [IterEvent.dispatch a, IterEvent.dispatch b, IterEvent.dispatch q] ∧
    dispatchCount (runLoopPhase [some a, some b, some q]).events = 3 ∧
    (runLoopPhase [some a, some b, some q]).finalState = some ⟨true, q⟩ := by
  have hall : ∀ m : MSG, some m ∈ [some a, some b] → m.message ≠ WM_QUIT := by
    intro m hm
    rcases List.mem_cons.mp hm with h | h
    · exact (Option.some_injective _ h) ▸ ha
    · rcases List.mem_cons.mp h with h' | h'
      · exact (Option.some_injective _ h') ▸ hb
      · simp at h'
  have h0 : primingPeek [some a, some b, some q] initialMsg = a := rfl
  have h0' : (primingPeek [some a, some b, some q] initialMsg).message ≠ WM_QUIT :=
    h0 ▸ ha
  have hrun := loopRun_hits_quit [some a, some b]
    ⟨false, primingPeek [some a, some b, some q] initialMsg⟩ q [] h0' hall hq
  have hphase : runLoopPhase [some a, some b, some q] =
      ⟨[IterEvent.dispatch a, IterEvent.dispatch b, IterEvent.dispatch q],
        some ⟨true, q⟩, []⟩ := by
    simpa [runLoopPhase, pollEvent] using hrun
  refine ⟨by simp [hphase], ?_, by simp [hphase]⟩
  simp [hphase, dispatchCount, dispatched]

theorem c3_amended_witness :
    msgA.message ≠ WM_QUIT ∧ msgB.message ≠ WM_QUIT ∧
    msgQuit.message = WM_QUIT ∧
    ((runLoopPhase [some msgA, some msgB, some msgQuit]).events =
        [IterEvent.dispatch msgA, IterEvent.dispatch msgB,
          IterEvent.dispatch msgQuit] ∧
      dispatchCount (runLoopPhase [some msgA, some msgB, some msgQuit]).events = 3 ∧
      (runLoopPhase [some msgA, some msgB, some msgQuit]).finalState =
        some ⟨true, msgQuit⟩) :=
  ⟨by decide, by decide, by decide,
    c3_amended_dispatch_count msgA msgB msgQuit (by decide) (by decide) (by decide)⟩

/-- C4: on a trace of N empty polls followed by the sentinel, each
empty poll produces exactly one idle iteration, so the idle hook runs
exactly N times and the loop then terminates.  (For N = 0 the priming
peek already sees the sentinel and the loop body never runs.) -/
theorem c4_idle_once_per_empty_poll (n : Nat) (q : MSG)
    (hq : q.message = WM_QUIT) :
    idleCount (runLoopPhase (List.replicate n none ++ [some q])).events = n ∧
    (runLoopPhase (List.replicate n none ++ [some q])).finalState.isSome = true := by
  cases n with
  | zero =>
    have h1 : runLoopPhase (List.replicate 0 none ++ [some q]) =
        loopRun ⟨false, q⟩ [some q] := rfl
    have hq' : (LoopState.mk false q).msg.message = WM_QUIT := hq
    rw [h1, loopRun_quit _ _ hq']
    simp [idleCount]
  | succ k =>
    have hrep : List.replicate (k + 1) (none : Option MSG) =
        none :: List.replicate k none := List.replicate_succ _ _
    have h0 : primingPeek (List.replicate (k + 1) none ++ [some q]) initialMsg =
        initialMsg := by
      rw [hrep]; rfl
    have h0' : (primingPeek (List.replicate (k + 1) none ++ [some q])
        initialMsg).message ≠ WM_QUIT := by
      rw [h0]; exact initialMsg_ne_quit
    have hall : ∀ m : MSG, some m ∈ List.replicate (k + 1) (none : Option MSG) →
        m.message ≠ WM_QUIT := by
      intro m hm
      have := List.eq_of_mem_replicate hm
      simp at this
    have hrun := loopRun_hits_quit (List.replicate (k + 1) none)
      ⟨false, primingPeek (List.replicate (k + 1) none ++ [some q]) initialMsg⟩
      q [] h0' hall hq
    have hphase : runLoopPhase (List.replicate (k + 1) none ++ [some q]) =
        ⟨List.replicate (k + 1) IterEvent.idle ++ [IterEvent.dispatch q],
          some ⟨true, q⟩, []⟩ := by
      simpa [runLoopPhase, List.map_replicate, pollEvent] using hrun
    rw [hphase]
    exact ⟨idleCount_replicate_append (k + 1) q, rfl⟩

theorem c4_witness :
    msgQuit.message = WM_QUIT ∧
    (idleCount (runLoopPhase (List.replicate 3 none ++ [some msgQuit])).events = 3 ∧
      (runLoopPhase (List.replicate 3 none ++ [some msgQuit])).finalState.isSome =
        true) :=
  ⟨by decide, c4_idle_once_per_empty_poll 3 msgQuit (by decide)⟩

/-- C5: every executed iteration consumes exactly one poll and produces
exactly one event — `dispatch m` when the poll retrieved `m` (translate
and dispatch, no idle work), `idle` when it did not (one unit of idle
work, no dispatch) — so the two branches are mutually exclusive and
exhaustive per iteration; and the loop only ever stops because the
termination condition holds (both branches continue the loop). -/
theorem c5_one_branch_per_iteration (s : LoopState) (trace : List (Option MSG)) :
    (∀ m : MSG, pollEvent (some m) = IterEvent.dispatch m) ∧
    pollEvent none = IterEvent.idle ∧
    (∃ k : Nat,
      (loopRun s trace).events = (trace.take k).map pollEvent ∧
      (loopRun s trace).rest = trace.drop k) ∧
    ∀ fs : LoopState,
      (loopRun s trace).finalState = some fs → fs.msg.message = WM_QUIT := by
  refine ⟨fun m => rfl, rfl, ?_, fun fs h => loopRun_final_quit trace s fs h⟩
  obtain ⟨k, h1, h2, _⟩ := loopRun_consumed trace s
  exact ⟨k, h1, h2⟩

theorem c5_witness :
    (∀ m : MSG, pollEvent (some m) = IterEvent.dispatch m) ∧
    pollEvent none = IterEvent.idle ∧
    (∃ k : Nat,
      (loopRun ⟨false, msgA⟩ [none, some msgB]).events =
        ([none, some msgB].take k).map pollEvent ∧
      (loopRun ⟨false, msgA⟩ [none, some msgB]).rest =
        [none, some msgB].drop k) ∧
    ∀ fs : LoopState,
      (loopRun ⟨false, msgA⟩ [none, some msgB]).finalState = some fs →
        fs.msg.message = WM_QUIT :=
  c5_one_branch_per_iteration ⟨false, msgA⟩ [none, some msgB]

/-- C6: if window-class registration fails, or window creation fails,
`wWinMain` returns -1 at once: no loop iteration runs, so nothing is
dispatched and no idle work is performed. -/
theorem c6_init_failure_returns_neg (env : InitEnv) (trace : List (Option MSG))
    (h : env.registerClassOk = false ∨ env.createWindowOk = false) :
    (wWinMain env trace).exitCode = some (-1) ∧
    (wWinMain env trace).events = [] := by
  rcases h with h | h
  · simp [wWinMain, h]
  · by_cases hr : env.registerClassOk = false
    · simp [wWinMain, hr]
    · simp [wWinMain, hr, h]

theorem c6_witness :
    ((InitEnv.mk false true).registerClassOk = false ∨
      (InitEnv.mk false true).createWindowOk = false) ∧
    ((wWinMain (InitEnv.mk false true) [some msgA]).exitCode = some (-1) ∧
      (wWinMain (InitEnv.mk false true) [some msgA]).events = []) :=
  ⟨Or.inl rfl,
    c6_init_failure_returns_neg (InitEnv.mk false true) [some msgA] (Or.inl rfl)⟩

/-- C7: retrieval is non-blocking: whatever the poll result — a pending
message or an empty queue — the iteration completes, producing exactly
the branch event for that poll; and the priming peek is non-removing:
a message it sees at the head of the queue is still there for the
loop's removing retrieval, which dispatches it first. -/
theorem c7_never_blocks (b : Bool) (m : MSG) (p : Option MSG)
    (rest : List (Option MSG)) (q : MSG) (t : List (Option MSG))
    (hm : m.message ≠ WM_QUIT) (hq : q.message ≠ WM_QUIT) :
    (loopRun ⟨b, m⟩ (p :: rest)).events.head? = some (pollEvent p) ∧
    (runLoopPhase (some q :: t)).events.head? =
      some (IterEvent.dispatch q) := by
  constructor
  · have hm' : (LoopState.mk b m).msg.message ≠ WM_QUIT := hm
    simp [loopRun, hm']
  · have h0 : runLoopPhase (some q :: t) = loopRun ⟨false, q⟩ (some q :: t) := rfl
    have hq' : (LoopState.mk false q).msg.message ≠ WM_QUIT := hq
    rw [h0]
    simp [loopRun, hq', pollEvent]

theorem c7_witness :
    msgA.message ≠ WM_QUIT ∧ msgB.message ≠ WM_QUIT ∧
    ((loopRun ⟨false, msgA⟩ (none :: [])).events.head? =
        some (pollEvent none) ∧
      (runLoopPhase (some msgB :: [])).events.head? =
        some (IterEvent.dispatch msgB)) :=
  ⟨by decide, by decide,
    c7_never_blocks false msgA none [] msgB [] (by decide) (by decide)⟩

/-- C8: the loop state is created at loop entry, and each executed
iteration — idle iterations included — applies the per-iteration
transition `stepState` exactly once, so the state at termination is the
left fold of `stepState` over the consumed polls; and the state is
discarded at loop exit: the value `wWinMain` returns is one of -1, 0 or
still-running, carrying no component of the loop state. -/
theorem c8_state_one_mutation_per_iteration (s : LoopState)
    (trace : List (Option MSG)) (env : InitEnv) :
    (∃ k : Nat,
      (loopRun s trace).events = (trace.take k).map pollEvent ∧
      (loopRun s trace).rest = trace.drop k ∧
      ((loopRun s trace).finalState = none ∨
        (loopRun s trace).finalState =
          some ((trace.take k).foldl stepState s))) ∧
    ((wWinMain env trace).exitCode = some (-1) ∨
      (wWinMain env trace).exitCode = some 0 ∨
      (wWinMain env trace).exitCode = none) := by
  refine ⟨loopRun_consumed trace s, ?_⟩
  by_cases h1 : env.registerClassOk = false
  · left; simp [wWinMain, h1]
  · by_cases h2 : env.createWindowOk = false
    · left; simp [wWinMain, h1, h2]
    · right
      by_cases h3 : (runLoopPhase trace).finalState.isSome
      · left; simp [wWinMain, h1, h2, h3]
      · right; simp [wWinMain, h1, h2, h3]

/-- C9: `WndProc` returns exactly `DefWindowProc`'s value on every
message, and it posts the quit sentinel (a `WM_QUIT` record with exit
code 0) exactly when the message is `WM_DESTROY` — the only posting
site in the program. -/
theorem c9_wndproc_default_passthrough (df : Nat → Nat → Nat → Int → Int)
    (hwnd uMsg wParam : Nat) (lParam : Int) :
    (WndProc df hwnd uMsg wParam lParam).1 = df hwnd uMsg wParam lParam ∧
    ((WndProc df hwnd uMsg wParam lParam).2 =
        some { message := WM_QUIT, wParam := 0, lParam := 0 } ↔
      uMsg = WM_DESTROY) := by
  refine ⟨rfl, ?_⟩
  by_cases h : uMsg = WM_DESTROY <;> simp [WndProc, h]

theorem c9_witness :
    (WndProc (fun _ _ _ _ => 0) 1 WM_DESTROY 0 0).1 =
      (fun (_ _ _ : Nat) (_ : Int) => (0 : Int)) 1 WM_DESTROY 0 0 ∧
    ((WndProc (fun _ _ _ _ => 0) 1 WM_DESTROY 0 0).2 =
        some { message := WM_QUIT, wParam := 0, lParam := 0 } ↔
      WM_DESTROY = WM_DESTROY) :=
  c9_wndproc_default_passthrough (fun _ _ _ _ => 0) 1 WM_DESTROY 0 0

/-- C10: if the priming peek already sees the sentinel at the head of
the queue, the loop body runs zero times — nothing is dispatched, no
idle work runs, the sentinel is never removed — and `wWinMain`
returns 0; and if no message is pending at loop entry, the
pre-initialized `WM_NULL` record makes the condition hold, so the loop
body still runs (its first iteration is an idle one). -/
theorem c10_quit_at_entry (q : MSG) (rest t : List (Option MSG)) (env : InitEnv)
    (hq : q.message = WM_QUIT) (hreg : env.registerClassOk = true)
    (hcre : env.createWindowOk = true) :
    (runLoopPhase (some q :: rest)).events = [] ∧
    (runLoopPhase (some q :: rest)).rest = some q :: rest ∧
    (wWinMain env (some q :: rest)).exitCode = some 0 ∧
    (runLoopPhase (none :: t)).events.head? = some IterEvent.idle := by
  have h0 : runLoopPhase (some q :: rest) = loopRun ⟨false, q⟩ (some q :: rest) := rfl
  have hq' : (LoopState.mk false q).msg.message = WM_QUIT := hq
  have hphase : runLoopPhase (some q :: rest) =
      ⟨[], some ⟨false, q⟩, some q :: rest⟩ := by
    rw [h0, loopRun_quit _ _ hq']
  refine ⟨by simp [hphase], by simp [hphase], ?_, ?_⟩
  · simp [wWinMain, hreg, hcre, hphase]
  · have h1 : runLoopPhase (none :: t) = loopRun ⟨false, initialMsg⟩ (none :: t) := rfl
    have hnull : (LoopState.mk false initialMsg).msg.message ≠ WM_QUIT := by decide
    rw [h1]
    simp [loopRun, hnull, pollEvent]

theorem c10_witness :
    msgQuit.message = WM_QUIT ∧
    (envOk : InitEnv).registerClassOk = true ∧
    (envOk : InitEnv).createWindowOk = true ∧
    ((runLoopPhase (some msgQuit :: [none])).events = [] ∧
      (runLoopPhase (some msgQuit :: [none])).rest = some msgQuit :: [none] ∧
      (wWinMain envOk (some msgQuit :: [none])).exitCode = some 0 ∧
      (runLoopPhase (none :: [some msgA])).events.head? = some IterEvent.idle) :=
  ⟨by decide, by decide, by decide,
    c10_quit_at_entry msgQuit [none] [some msgA] envOk
      (by decide) (by decide) (by decide)⟩
